import Mathlib

/-!
Verification of the admin-route and client-security modules of this
repository against their natural-language specification.

Server side (src/server/routes/admin.ts and the stricter unnamed variant):
the Firebase Admin SDK, the Firestore record store and the token verifier
are external services.  They are embedded as follows:

* the record store is a `Store` structure holding the `users`, `bans` and
  `licenses` collections as association lists;
* the environment `Env` carries the facts the external world supplies to a
  single request: whether the SDK initialisation at module load succeeded
  (`sdkInitialized`), the verdict of `adminAuth.verifyIdToken`
  (`tokenSubject`, returning the decoded subject uid or `none` when
  verification throws), the first clock reading `now` of the request
  (milliseconds) together with the clock advance `tick` observed by the
  second reading of a handler that reads the clock twice, and
  `randDigits`, the fractional base-36 digits that
  `Math.random().toString(36)` prints after the leading "0." for the
  single `Math.random()` call of the request;
* every handler returns a `HandlerResult`: the JSON response it sends, the
  record store after the request, and the ordered trace of record-store
  operations it performed, so that claims about "zero writes" and "no
  reads" are statements about the trace.

Client side (src/client/lib/security.ts): strings are modelled as
`List Char`.  The only external call is `DOMPurify.sanitize` with
`ALLOWED_TAGS: []`, embedded as `stripTags`, a tag-stripping automaton
that removes every `<`...`>` span (and everything after an unterminated
`<`) and keeps text content verbatim; HTML entity re-encoding performed by
the serializer is not modelled, and no theorem below depends on it.
-/

/-- Value stored in a user-document field.  Firestore documents are
schemaless; the declared fields of a user record are typed below and any
additional fields live in `UserRecord.extra`. -/
inductive FieldValue where
  | str (s : String)
  | bool (b : Bool)
  | num (n : Nat)
  deriving DecidableEq

/-- User document in the `users` collection (spec section 3): email,
display name, administrative-privilege flag, plan, creation timestamp.
`extra` holds any further fields an arbitrary stored document may carry;
no handler of this module ever reads or writes them. -/
structure UserRecord where
  email : String
  displayName : String
  isAdmin : Bool
  plan : String
  createdAt : Nat
  extra : List (String × FieldValue)
  deriving DecidableEq

/-- Embeds the time value of a `new Date(t)` construction: per the
ECMA-262 TimeClip operation, a millisecond argument whose magnitude
exceeds 8.64e15 yields an Invalid Date (NaN time value), modelled as
`none`; otherwise the Date carries `t` itself. -/
def jsDateValue (t : Int) : Option Int :=
  if t.natAbs ≤ 8640000000000000 then some t else none

/-- Ban document created by handleBanUser (admin.ts lines 92-99), field
for field.  Times are milliseconds since epoch.  `bannedAt` comes from an
argumentless `new Date()`, which reads the host clock and is always a
valid Date; `expiresAt` comes from `new Date(Date.now() + duration *
1000)`, whose computed argument can exceed the JS Date range, so it is an
`Option Int` with `none` standing for an Invalid Date. -/
structure BanRecord where
  userId : String
  reason : String
  bannedBy : String
  bannedAt : Int
  duration : Int
  expiresAt : Option Int
  deriving DecidableEq

/-- License document created by handleCreateLicense (admin.ts lines
162-171), field for field.  The JS `null` values of `usedBy` and `usedAt`
are `none`. -/
structure LicenseRecord where
  key : List Char
  plan : String
  validityDays : Int
  createdBy : String
  createdAt : Nat
  used : Bool
  usedBy : Option String
  usedAt : Option Nat
  deriving DecidableEq

/-- The Firestore record store: the three collections touched by the
admin routes.  `users` and `licenses` are keyed association lists
(document id to document); `bans` uses auto-generated ids via
`collection("bans").add`, modelled as appending to a list. -/
structure Store where
  users : List (String × UserRecord)
  bans : List BanRecord
  licenses : List (List Char × LicenseRecord)
  deriving DecidableEq

/-- One record-store operation, for the per-request operation trace. -/
inductive StoreOp where
  | readUser (uid : String)
  | readAllUsers
  | writeBan (b : BanRecord)
  | writeLicense (key : List Char) (lic : LicenseRecord)
  deriving DecidableEq

/-- Whether a store operation mutates the record store. -/
def StoreOp.isWrite : StoreOp → Bool
  | .writeBan _ => true
  | .writeLicense _ _ => true
  | _ => false

/-- External facts available to a single request (see the module
comment).  A handler may read the clock twice (handleBanUser evaluates
`bannedAt: new Date()` and then `Date.now()` inside the expiry
expression; handleCreateLicense evaluates `Date.now()` in the key
template and then `createdAt: new Date()`): `now` is the first reading of
the request and `tick` the non-negative number of milliseconds the host
clock has advanced by the second reading, so that reading is
`now + tick`. -/
structure Env where
  sdkInitialized : Bool
  tokenSubject : String → Option String
  now : Nat
  tick : Nat
  randDigits : List (Fin 36)

/-- JSON response sent by a handler: one constructor per distinct success
shape, plus the error envelope `status`/`error` used by every failure
path. -/
inductive AdminResponse where
  | verifyOk (adminUid : String)
  | banOk
  | usersOk (users : List (List (String × FieldValue)))
  | licenseOk (licenseKey : List Char)
  | errorResp (status : Nat) (error : String)
  deriving DecidableEq

/-- Whether a response is an error envelope. -/
def AdminResponse.isError : AdminResponse → Bool
  | .errorResp _ _ => true
  | _ => false

/-- Result of one handler invocation: response, record store after the
request, and the trace of record-store operations performed. -/
structure HandlerResult where
  resp : AdminResponse
  store : Store
  ops : List StoreOp
  deriving DecidableEq

/-- Embeds verifyAdmin (admin.ts lines 46-57): throw if the SDK handle is
missing, verify the token, read the user document of the decoded uid, and
require it to exist with a truthy isAdmin flag.  The returned list is the
trace of store reads the call performed; the `Except` carries the thrown
message or the admin uid. -/
def verifyAdmin (env : Env) (store : Store) (idToken : String) :
    List StoreOp × Except String String :=
  if env.sdkInitialized = false then ([], .error "Admin SDK not initialized")
  else
    match env.tokenSubject idToken with
    | none => ([], .error "Invalid ID token")
    | some uid =>
      match List.lookup uid store.users with
      | none => ([StoreOp.readUser uid], .error "Unauthorized: Not an admin")
      | some u =>
        if u.isAdmin = false then
          ([StoreOp.readUser uid], .error "Unauthorized: Not an admin")
        else ([StoreOp.readUser uid], .ok uid)

/-- Request body of POST verify-admin. -/
structure VerifyAdminBody where
  idToken : String

/-- VerifyAdminSchema (admin.ts lines 28-30): idToken a non-empty
string. -/
def verifyAdminSchemaOk (b : VerifyAdminBody) : Bool :=
  decide (1 ≤ b.idToken.length)

/-- Request body of POST ban-user. -/
structure BanUserBody where
  idToken : String
  userId : String
  reason : String
  duration : Int

/-- BanUserSchema (admin.ts lines 38-43).  The userId constraint
`z.string().uuid().or(z.string().min(10))` collapses to length at least
10, because every RFC-4122 uuid string has length 36.  The duration
constraint is `z.number().int().positive()`: a positive integer with no
upper bound.  Non-integer numbers, rejected by `.int()`, are outside the
`Int` carrier and hence outside the model. -/
def banUserSchemaOk (b : BanUserBody) : Bool :=
  decide (1 ≤ b.idToken.length) && decide (10 ≤ b.userId.length) &&
  decide (5 ≤ b.reason.length) && decide (b.reason.length ≤ 500) &&
  decide (0 < b.duration)

/-- Character class `[A-Za-z0-9_.-]` of the bearer-token fields in the
strict schema variant. -/
def isTokenChar (c : Char) : Bool :=
  c.isAlpha || c.isDigit || c == '_' || c == '-' || c == '.'

/-- BanUserSchema of the stricter unnamed route file (src/unnamed/part_000
lines 20-29): bounded token with a restricted character class, userId
length 10-100, reason length 5-500 (the zod `.trim()` transform runs after
the bounds and only affects the parsed value, not acceptance), and
duration an integer in 1..36500. -/
def banUserSchemaStrictOk (b : BanUserBody) : Bool :=
  decide (10 ≤ b.idToken.length) && decide (b.idToken.length ≤ 3000) &&
  b.idToken.toList.all isTokenChar &&
  decide (10 ≤ b.userId.length) && decide (b.userId.length ≤ 100) &&
  decide (5 ≤ b.reason.length) && decide (b.reason.length ≤ 500) &&
  decide (1 ≤ b.duration) && decide (b.duration ≤ 36500)

/-- Embeds handleVerifyAdmin (admin.ts lines 60-72): parse the body,
verify admin status, answer with the admin uid; any thrown error is
caught and mapped to a 401 Unauthorized envelope. -/
def handleVerifyAdmin (env : Env) (store : Store) (body : VerifyAdminBody) :
    HandlerResult :=
  if verifyAdminSchemaOk body = false then
    ⟨.errorResp 401 "Unauthorized", store, []⟩
  else
    match verifyAdmin env store body.idToken with
    | (ops, .error _) => ⟨.errorResp 401 "Unauthorized", store, ops⟩
    | (ops, .ok adminUid) => ⟨.verifyOk adminUid, store, ops⟩

/-- Embeds handleBanUser (admin.ts lines 75-114): parse the body, verify
admin status, read the target user document, answer 404 when it is
absent and 403 when the target itself is an admin, otherwise append the
ban record.  The record fields are evaluated in source order: `bannedAt:
new Date()` takes the first clock reading `env.now`, while `expiresAt:
new Date(Date.now() + duration * 1000)` takes the second clock reading
`env.now + env.tick` and passes the sum through the Date range clipping
of `jsDateValue` (an out-of-range sum produces an Invalid Date).  Thrown
errors map to a 400 envelope. -/
def handleBanUser (env : Env) (store : Store) (body : BanUserBody) :
    HandlerResult :=
  if banUserSchemaOk body = false then
    ⟨.errorResp 400 "Failed to ban user", store, []⟩
  else
    match verifyAdmin env store body.idToken with
    | (ops, .error _) => ⟨.errorResp 400 "Failed to ban user", store, ops⟩
    | (ops, .ok adminUid) =>
      let ops2 := ops ++ [StoreOp.readUser body.userId]
      match List.lookup body.userId store.users with
      | none => ⟨.errorResp 404 "User not found", store, ops2⟩
      | some target =>
        if target.isAdmin then
          ⟨.errorResp 403 "Cannot ban admin users", store, ops2⟩
        else
          let ban : BanRecord :=
            { userId := body.userId, reason := body.reason,
              bannedBy := adminUid, bannedAt := (env.now : Int),
              duration := body.duration,
              expiresAt :=
                jsDateValue ((env.now + env.tick : Nat) +
                  body.duration * 1000) }
          ⟨.banOk, { store with bans := store.bans ++ [ban] },
            ops2 ++ [StoreOp.writeBan ban]⟩

/-- Split on a literal separator with the semantics of the JS
`String.prototype.split`: scan left to right, cut at every occurrence of
the separator.  The fuel argument makes the recursion structural; the
scan consumes at least one character per step, so fuel equal to the
length of the input always suffices. -/
def splitOnListAux (sep : List Char) : Nat → List Char → List Char →
    List (List Char)
  | _, [], acc => [acc.reverse]
  | 0, s, acc => [acc.reverse ++ s]
  | fuel + 1, c :: cs, acc =>
    if !sep.isEmpty && sep.isPrefixOf (c :: cs) then
      acc.reverse :: splitOnListAux sep fuel ((c :: cs).drop sep.length) []
    else splitOnListAux sep fuel cs (c :: acc)

/-- Split a character list on a literal separator. -/
def splitOnList (sep s : List Char) : List (List Char) :=
  splitOnListAux sep s.length s []

/-- Embeds the header token extraction
`req.headers.authorization?.split("Bearer ")[1]` shared by the GET-style
handlers: `none` models both a missing header and a split with no second
chunk (the JS `undefined`). -/
def bearerToken (authorization : Option String) : Option String :=
  match authorization with
  | none => none
  | some h =>
    ((splitOnList "Bearer ".toList h.toList).get? 1).map fun l => String.mk l

/-- Projection applied to every user document by handleGetAllUsers
(admin.ts lines 125-132): document id plus the five declared fields,
rendered as an explicit field list so that the absence of any other field
in the response is a statement about this value. -/
def projectUser (uid : String) (u : UserRecord) : List (String × FieldValue) :=
  [("uid", .str uid), ("email", .str u.email),
   ("displayName", .str u.displayName), ("isAdmin", .bool u.isAdmin),
   ("plan", .str u.plan), ("createdAt", .num u.createdAt)]

/-- Embeds handleGetAllUsers (admin.ts lines 117-142): extract the bearer
token, verify admin status, read the whole users collection and answer
with the projected documents; any thrown error maps to a 401
envelope. -/
def handleGetAllUsers (env : Env) (store : Store)
    (authorization : Option String) : HandlerResult :=
  match bearerToken authorization with
  | none => ⟨.errorResp 401 "Unauthorized", store, []⟩
  | some idToken =>
    match verifyAdmin env store idToken with
    | (ops, .error _) => ⟨.errorResp 401 "Unauthorized", store, ops⟩
    | (ops, .ok _) =>
      ⟨.usersOk (store.users.map (fun p => projectUser p.1 p.2)), store,
        ops ++ [StoreOp.readAllUsers]⟩

/-- Request body of POST create-license. -/
structure CreateLicenseBody where
  plan : String
  validityDays : Int

/-- The inline body schema of handleCreateLicense (admin.ts lines
152-157): plan in the fixed enumeration and validityDays a positive
integer. -/
def createLicenseBodyOk (b : CreateLicenseBody) : Bool :=
  (b.plan == "Free" || b.plan == "Classic" || b.plan == "Pro") &&
  decide (0 < b.validityDays)

/-- Decimal digit characters of a natural number, least fuel first; this
is the decimal rendering performed by the template literal on
`Date.now()`.  The fuel argument makes the recursion structural; `fuel =
n + 1` always suffices because the value shrinks by a factor of ten per
emitted digit. -/
def decDigitsAux : Nat → Nat → List Char
  | 0, _ => []
  | fuel + 1, n =>
    if n < 10 then [Nat.digitChar n]
    else decDigitsAux fuel (n / 10) ++ [Nat.digitChar (n % 10)]

/-- Decimal rendering of a natural number as a character list. -/
def decDigits (n : Nat) : List Char := decDigitsAux (n + 1) n

/-- Uppercased base-36 digit character: `0`-`9` then `A`-`Z`.  This is
what a fractional digit of `Math.random().toString(36)` becomes after
`.toUpperCase()`. -/
def upperBase36Char (d : Fin 36) : Char :=
  if d.val < 10 then Char.ofNat (48 + d.val) else Char.ofNat (55 + d.val)

/-- Embeds the key template of admin.ts line 160,
LIC-${Date.now()}-${Math.random().toString(36).substr(2, 9).toUpperCase()}:
`substr(2, 9)` keeps at most the first nine fractional base-36 digits of
the random value, so the suffix is shorter than nine characters exactly
when the printed expansion has fewer than nine fractional digits. -/
def licenseKeyChars (now : Nat) (randDigits : List (Fin 36)) : List Char :=
  'L' :: 'I' :: 'C' :: '-' ::
    (decDigits now ++ '-' :: (randDigits.take 9).map upperBase36Char)

/-- Embeds `.doc(key).set(data)` on an association list: overwrite the
entry with this key, or append a new one. -/
def assocSetLicense (k : List Char) (v : LicenseRecord) :
    List (List Char × LicenseRecord) → List (List Char × LicenseRecord)
  | [] => [(k, v)]
  | (k2, v2) :: rest =>
    if k2 = k then (k, v) :: rest else (k2, v2) :: assocSetLicense k v rest

/-- Embeds handleCreateLicense (admin.ts lines 145-185): extract the
bearer token, verify admin status, then parse the body, generate the key
and write the license document in unused state.  Note the source parses
the body only after the admin check, so a verification failure leaves the
body unexamined.  The key template evaluates `Date.now()` first (the
reading `env.now`) and the later `createdAt: new Date()` takes the second
clock reading `env.now + env.tick`.  Thrown errors map to a 400
envelope. -/
def handleCreateLicense (env : Env) (store : Store)
    (authorization : Option String) (body : CreateLicenseBody) :
    HandlerResult :=
  match bearerToken authorization with
  | none => ⟨.errorResp 400 "Failed to create license", store, []⟩
  | some idToken =>
    match verifyAdmin env store idToken with
    | (ops, .error _) => ⟨.errorResp 400 "Failed to create license", store, ops⟩
    | (ops, .ok adminUid) =>
      if createLicenseBodyOk body = false then
        ⟨.errorResp 400 "Failed to create license", store, ops⟩
      else
        let key := licenseKeyChars env.now env.randDigits
        let lic : LicenseRecord :=
          { key := key, plan := body.plan, validityDays := body.validityDays,
            createdBy := adminUid, createdAt := env.now + env.tick,
            used := false,
            usedBy := none, usedAt := none }
        ⟨.licenseOk key,
          { store with licenses := assocSetLicense key lic store.licenses },
          ops ++ [StoreOp.writeLicense key lic]⟩

/-- Whitespace characters removed by the JS `String.prototype.trim`
(ECMA-262 WhiteSpace plus LineTerminator). -/
def isJsWhitespace (c : Char) : Bool :=
  c.toNat == 0x09 || c.toNat == 0x0A || c.toNat == 0x0B || c.toNat == 0x0C ||
  c.toNat == 0x0D || c.toNat == 0x20 || c.toNat == 0xA0 ||
  c.toNat == 0x1680 || (0x2000 ≤ c.toNat && c.toNat ≤ 0x200A) ||
  c.toNat == 0x2028 || c.toNat == 0x2029 || c.toNat == 0x202F ||
  c.toNat == 0x205F || c.toNat == 0x3000 || c.toNat == 0xFEFF

/-- Embeds `input.trim()`: drop whitespace from both ends. -/
def jsTrim (s : List Char) : List Char :=
  ((s.dropWhile isJsWhitespace).reverse.dropWhile isJsWhitespace).reverse

/-- Control characters removed by the regex
`[\x00-\x08\x0B\x0C\x0E-\x1F\x7F]` in sanitizeInput (security.ts line
31).  Carriage return 0x0D is notably kept. -/
def isStrippedCtrl (c : Char) : Bool :=
  c.toNat ≤ 8 || c.toNat == 0x0B || c.toNat == 0x0C ||
  (0x0E ≤ c.toNat && c.toNat ≤ 0x1F) || c.toNat == 0x7F

/-- Tag-stripping automaton modelling `DOMPurify.sanitize` with
`ALLOWED_TAGS: []` and `ALLOWED_ATTR: []` (see the module comment): in
text mode a `<` switches to tag mode and emits nothing until the matching
`>`; all other text-mode characters are kept verbatim. -/
def stripTagsAux : Bool → List Char → List Char
  | _, [] => []
  | false, c :: cs =>
    if c = '<' then stripTagsAux true cs else c :: stripTagsAux false cs
  | true, c :: cs =>
    if c = '>' then stripTagsAux false cs else stripTagsAux true cs

/-- Markup removal starting in text mode. -/
def stripTags (s : List Char) : List Char := stripTagsAux false s

/-- Embeds sanitizeInput (security.ts lines 21-41), in source order: trim,
remove null bytes, remove the control-character class, then strip all
markup. -/
def sanitizeInput (s : List Char) : List Char :=
  stripTags (((jsTrim s).filter fun c => !(c == '\x00')).filter
    fun c => !(isStrippedCtrl c))

/-- Embeds `content.split("\n")` on character lists. -/
def splitOnNewline : List Char → List (List Char)
  | [] => [[]]
  | c :: cs =>
    if c = '\n' then [] :: splitOnNewline cs
    else
      match splitOnNewline cs with
      | [] => [[c]]
      | l :: ls => (c :: l) :: ls

/-- Embeds validateMessageContent (security.ts lines 59-73): non-empty
input, trimmed length 1..5000, no null byte, and no line longer than 1000
characters. -/
def validateMessageContent (content : List Char) : Bool :=
  if content.isEmpty then false
  else if (jsTrim content).length < 1 || 5000 < (jsTrim content).length then
    false
  else if content.contains '\x00' then false
  else if (splitOnNewline content).any (fun line => 1000 < line.length) then
    false
  else true

/-- Character class `[a-zA-Z0-9\-_]` of the Firestore document id regex. -/
def isDocIdChar (c : Char) : Bool :=
  c.isAlpha || c.isDigit || c == '-' || c == '_'

/-- Embeds validateConversationId (security.ts lines 107-112): the regex
`^[a-zA-Z0-9\-_]{1,255}$` (the JS falsiness check on the empty string is
subsumed by the length bound). -/
def validateConversationId (s : List Char) : Bool :=
  decide (1 ≤ s.length) && decide (s.length ≤ 255) && s.all isDocIdChar

/-- Embeds validateUserId (security.ts lines 98-102): the regex
`^[a-zA-Z0-9]{20,40}$`. -/
def validateUserId (s : List Char) : Bool :=
  decide (20 ≤ s.length) && decide (s.length ≤ 40) && s.all Char.isAlphanum

/-- The SQL keyword alternation of detectInjectionAttempt. -/
def sqlKeywords : List (List Char) :=
  ["SELECT".toList, "INSERT".toList, "UPDATE".toList, "DELETE".toList,
   "DROP".toList, "CREATE".toList, "ALTER".toList, "EXEC".toList,
   "EXECUTE".toList, "UNION".toList, "WHERE".toList, "OR".toList,
   "AND".toList]

/-- JS regex word character class `[A-Za-z0-9_]`, for `\b` boundaries. -/
def isWordChar (c : Char) : Bool := c.isAlphanum || c == '_'

/-- Case-insensitive literal match at the front of a list, returning the
remainder on success. -/
def ciStrip : List Char → List Char → Option (List Char)
  | [], s => some s
  | _ :: _, [] => none
  | k :: ks, c :: cs => if k.toLower = c.toLower then ciStrip ks cs else none

/-- A `\b` boundary holds against the string edge or a non-word
character. -/
def boundaryOk : Option Char → Bool
  | none => true
  | some c => !isWordChar c

/-- Whether the keyword matches case-insensitively at the head of `s`
with `\b` boundaries on both sides; `prev` is the character before this
position. -/
def sqlWordHere (prev : Option Char) (s : List Char) (kw : List Char) : Bool :=
  match ciStrip kw s with
  | none => false
  | some rest => boundaryOk prev && boundaryOk rest.head?

/-- Scan every position for a boundary-delimited SQL keyword. -/
def hasSqlWordAux : Option Char → List Char → Bool
  | _, [] => false
  | prev, c :: cs =>
    sqlKeywords.any (sqlWordHere prev (c :: cs)) || hasSqlWordAux (some c) cs

/-- Embeds the first pattern of detectInjectionAttempt, the
case-insensitive `\b`-delimited SQL keyword alternation. -/
def hasSqlWord (s : List Char) : Bool := hasSqlWordAux none s

/-- Embeds the NoSQL pattern `[\x7b\x7d$\[\]]`: any brace, dollar or
square bracket. -/
def hasNoSqlChar (s : List Char) : Bool :=
  s.any fun c =>
    c == '\x7b' || c == '\x7d' || c == '$' || c == '[' || c == ']'

/-- Embeds the script pattern `<script[^>]*>` (case-insensitive) at one
position: the literal `<script` followed by a `>` somewhere after it,
since `[^>]*` matches exactly the characters before the first `>`. -/
def scriptTagAt (s : List Char) : Bool :=
  match ciStrip "<script".toList s with
  | none => false
  | some rest => rest.contains '>'

/-- Scan every position for the script pattern. -/
def hasScriptTag : List Char → Bool
  | [] => false
  | c :: cs => scriptTagAt (c :: cs) || hasScriptTag cs

/-- Case-insensitive substring search, for the `javascript:` pattern. -/
def ciContainsAux (kw : List Char) : List Char → Bool
  | [] => (ciStrip kw []).isSome
  | c :: cs => (ciStrip kw (c :: cs)).isSome || ciContainsAux kw cs

/-- Embeds the command-injection class `[;&|\x60$()]`. -/
def hasCmdChar (s : List Char) : Bool :=
  s.any fun c =>
    c == ';' || c == '&' || c == '|' || c == '\x60' || c == '$' ||
    c == '(' || c == ')'

/-- Literal substring search, for the path-traversal patterns. -/
def listHasSub (pat : List Char) : List Char → Bool
  | [] => pat.isEmpty
  | c :: cs => pat.isPrefixOf (c :: cs) || listHasSub pat cs

/-- Embeds detectInjectionAttempt (security.ts lines 177-196): the falsy
guard on empty input, then the disjunction of the seven suspicious
patterns in source order. -/
def detectInjectionAttempt (s : List Char) : Bool :=
  if s.isEmpty then false
  else
    hasSqlWord s || hasNoSqlChar s || hasScriptTag s ||
    ciContainsAux "javascript:".toList s || hasCmdChar s ||
    listHasSub "../".toList s || listHasSub "..\\".toList s

/-- The object returned by createSecureMessage on success. -/
structure SecureMessage where
  conversationId : List Char
  userId : List Char
  content : List Char
  sanitizedContent : List Char
  deriving DecidableEq

/-- Embeds createSecureMessage (security.ts lines 202-243): validate the
two ids, validate the content, run injection detection, then build the
object whose `content` and `sanitizedContent` both hold the sanitized
content. -/
def createSecureMessage (conversationId userId content : List Char) :
    Option SecureMessage :=
  if validateConversationId conversationId = false then none
  else if validateUserId userId = false then none
  else if validateMessageContent content = false then none
  else if detectInjectionAttempt content = true then none
  else
    some { conversationId := conversationId, userId := userId,
           content := sanitizeInput content,
           sanitizedContent := sanitizeInput content }

/-- The JSON value a RateLimiter keeps in localStorage under its key. -/
structure RLData where
  count : Nat
  resetAt : Nat
  deriving DecidableEq

/-- Configuration of a RateLimiter instance (security.ts lines 118-127);
the storage key plays no role once the stored value is passed
explicitly. -/
structure RateLimiter where
  maxRequests : Nat
  windowMs : Nat
  deriving DecidableEq

/-- Embeds RateLimiter.isAllowed (security.ts lines 129-162) on the
normal storage path: given the clock and the currently stored window
data, return the verdict and the data written back.  The catch-all
fail-open branch concerns storage exceptions and is outside this
model. -/
def RateLimiter.isAllowed (rl : RateLimiter) (now : Nat)
    (st : Option RLData) : Bool × Option RLData :=
  match st with
  | none => (true, some { count := 1, resetAt := now + rl.windowMs })
  | some p =>
    if p.resetAt < now then
      (true, some { count := 1, resetAt := now + rl.windowMs })
    else if rl.maxRequests ≤ p.count then (false, some p)
    else (true, some { count := p.count + 1, resetAt := p.resetAt })

/-- Iterate isAllowed over a list of call times, collecting the
verdicts. -/
def runCalls (rl : RateLimiter) : List Nat → Option RLData →
    List Bool × Option RLData
  | [], st => ([], st)
  | t :: ts, st =>
    let r := rl.isAllowed t st
    let rs := runCalls rl ts r.2
    (r.1 :: rs.1, rs.2)

/-- Split a character list at its first dash, returning the parts before
and after it. -/
def splitAtDash : List Char → Option (List Char × List Char)
  | [] => none
  | c :: cs =>
    if c = '-' then some ([], cs)
    else
      match splitAtDash cs with
      | none => none
      | some (a, b) => some (c :: a, b)

/-- Uppercase alphanumeric character: a decimal digit or `A`-`Z`. -/
def isUpperAlnumChar (c : Char) : Bool := c.isDigit || ('A' ≤ c && c ≤ 'Z')

/-- Decides the key format declared by the spec, the pattern
LIC-(digits)-(9 uppercase alphanumerics): the literal prefix, one or more
decimal digits, a dash, then exactly nine uppercase alphanumerics. -/
def matchesLicensePattern (cs : List Char) : Bool :=
  match cs with
  | c1 :: c2 :: c3 :: c4 :: rest =>
    c1 == 'L' && c2 == 'I' && c3 == 'C' && c4 == '-' &&
    (match splitAtDash rest with
     | none => false
     | some (ds, sfx) =>
       !ds.isEmpty && ds.all Char.isDigit && (sfx.length == 9) &&
         sfx.all isUpperAlnumChar)
  | _ => false

/-- Fixture: a user record carrying the administrative privilege. -/
def sampleAdmin : UserRecord :=
  { email := "admin@example.com", displayName := "Admin", isAdmin := true,
    plan := "Pro", createdAt := 0, extra := [] }

/-- Fixture: an ordinary (non-admin) user record. -/
def sampleUser : UserRecord :=
  { email := "user@example.com", displayName := "User", isAdmin := false,
    plan := "Free", createdAt := 0, extra := [] }

/-- Fixture: an environment whose identity provider resolves every token
to the subject "adm", whose clock does not advance during the request,
and whose random value has nine printed base-36 fractional digits. -/
def sampleEnv : Env :=
  { sdkInitialized := true, tokenSubject := fun _ => some "adm",
    now := 1700000000000, tick := 0,
    randDigits := [0, 1, 2, 3, 4, 5, 6, 7, 8] }

/-- Fixture: the same environment with the Admin SDK uninitialized. -/
def sampleEnvDown : Env := { sampleEnv with sdkInitialized := false }

/-- Fixture: the same environment when Math.random() returned 0.5, whose
base-36 rendering "0.i" has a single fractional digit. -/
def sampleEnvShortRand : Env := { sampleEnv with randDigits := [18] }

/-- Fixture: the same environment when the host clock advanced by one
millisecond between the two clock readings of the request. -/
def sampleEnvTick : Env := { sampleEnv with tick := 1 }

/-- Fixture: a store holding the admin subject and one ordinary user. -/
def sampleStore : Store :=
  { users := [("adm", sampleAdmin), ("user567890", sampleUser)],
    bans := [], licenses := [] }

/-- Fixture: a store with no user records at all. -/
def emptyStore : Store := { users := [], bans := [], licenses := [] }

/-- Fixture: a verify-admin body. -/
def sampleVerifyBody : VerifyAdminBody := { idToken := "tok4567890" }

/-- Fixture: a ban-user body valid for both schema variants. -/
def sampleBanBody : BanUserBody :=
  { idToken := "tok4567890", userId := "user567890",
    reason := "abuse report", duration := 86400 }

/-- Fixture: a ban-user body with duration 36500, the strict upper
bound. -/
def strictBanBody : BanUserBody := { sampleBanBody with duration := 36500 }

/-- Fixture: a ban-user body with duration 36501, just above the strict
upper bound. -/
def looseBanBody : BanUserBody := { sampleBanBody with duration := 36501 }

/-- Fixture: a ban-user body with duration 10^13 seconds, accepted by the
BanUserSchema of admin.ts (positive integer) although the expiry sum
10001700000000000 ms exceeds the JS Date range of 8.64e15 ms. -/
def hugeBanBody : BanUserBody :=
  { sampleBanBody with duration := 10000000000000 }

/-- Fixture: a create-license body. -/
def sampleLicenseBody : CreateLicenseBody := { plan := "Pro", validityDays := 30 }

/-- Fixture: an Authorization header carrying the sample token. -/
def sampleAuthz : Option String := some "Bearer tok4567890"

theorem verifyAdmin_uninit (env : Env) (store : Store) (t : String)
    (hs : env.sdkInitialized = false) :
    verifyAdmin env store t = ([], .error "Admin SDK not initialized") := by
  unfold verifyAdmin
  simp [hs]

theorem verifyAdmin_ok (env : Env) (store : Store) (t : String)
    (uid : String) (u : UserRecord) (hs : env.sdkInitialized = true)
    (ht : env.tokenSubject t = some uid)
    (hu : List.lookup uid store.users = some u) (ha : u.isAdmin = true) :
    verifyAdmin env store t = ([StoreOp.readUser uid], .ok uid) := by
  unfold verifyAdmin
  simp [hs, ht, hu, ha]

theorem verifyAdmin_snd_error (env : Env) (store : Store) (t : String)
    (uid : String) (ht : env.tokenSubject t = some uid)
    (hno : List.lookup uid store.users = none ∨
      ∃ u, List.lookup uid store.users = some u ∧ u.isAdmin = false) :
    ∃ e, (verifyAdmin env store t).2 = .error e := by
  unfold verifyAdmin
  by_cases hs : env.sdkInitialized = false
  · simp [hs]
  · rcases hno with h | ⟨u, hu, hua⟩
    · simp [hs, ht, h]
    · simp [hs, ht, hu, hua]

theorem verifyAdmin_ops_no_writes (env : Env) (store : Store) (t : String) :
    ((verifyAdmin env store t).1).filter StoreOp.isWrite = [] := by
  unfold verifyAdmin
  by_cases hs : env.sdkInitialized = false
  · simp [hs]
  · cases hts : env.tokenSubject t with
    | none => simp [hs, hts]
    | some uid =>
      cases hl : List.lookup uid store.users with
      | none => simp [hs, hts, hl, StoreOp.isWrite]
      | some u =>
        by_cases hu : u.isAdmin = false <;>
          simp [hs, hts, hl, hu, StoreOp.isWrite]

/-- C2: when the service-account credential is absent and the admin SDK
is therefore not initialized, each of the four admin operations answers
with its error envelope, leaves the record store exactly as it was, and
performs no record-store operation at all (empty trace): the service
fails closed. -/
theorem admin_ops_fail_closed_uninitialized (env : Env) (store : Store)
    (bv : VerifyAdminBody) (bb : BanUserBody) (authz : Option String)
    (bl : CreateLicenseBody) (hs : env.sdkInitialized = false) :
    handleVerifyAdmin env store bv =
      ⟨.errorResp 401 "Unauthorized", store, []⟩ ∧
    handleBanUser env store bb =
      ⟨.errorResp 400 "Failed to ban user", store, []⟩ ∧
    handleGetAllUsers env store authz =
      ⟨.errorResp 401 "Unauthorized", store, []⟩ ∧
    handleCreateLicense env store authz bl =
      ⟨.errorResp 400 "Failed to create license", store, []⟩ := by
  refine ⟨?_, ?_, ?_, ?_⟩
  · unfold handleVerifyAdmin
    by_cases h : verifyAdminSchemaOk bv = false
    · simp [h]
    · simp [h, verifyAdmin_uninit env store bv.idToken hs]
  · unfold handleBanUser
    by_cases h : banUserSchemaOk bb = false
    · simp [h]
    · simp [h, verifyAdmin_uninit env store bb.idToken hs]
  · unfold handleGetAllUsers
    cases hb : bearerToken authz with
    | none => simp
    | some t => simp [verifyAdmin_uninit env store t hs]
  · unfold handleCreateLicense
    cases hb : bearerToken authz with
    | none => simp
    | some t => simp [verifyAdmin_uninit env store t hs]

/-- Witness for C2 at a concrete uninitialized environment. -/
theorem admin_ops_fail_closed_uninitialized_witness :
    handleVerifyAdmin sampleEnvDown sampleStore sampleVerifyBody =
      ⟨.errorResp 401 "Unauthorized", sampleStore, []⟩ ∧
    handleBanUser sampleEnvDown sampleStore sampleBanBody =
      ⟨.errorResp 400 "Failed to ban user", sampleStore, []⟩ ∧
    handleGetAllUsers sampleEnvDown sampleStore sampleAuthz =
      ⟨.errorResp 401 "Unauthorized", sampleStore, []⟩ ∧
    handleCreateLicense sampleEnvDown sampleStore sampleAuthz
        sampleLicenseBody =
      ⟨.errorResp 400 "Failed to create license", sampleStore, []⟩ :=
  admin_ops_fail_closed_uninitialized sampleEnvDown sampleStore
    sampleVerifyBody sampleBanBody sampleAuthz sampleLicenseBody rfl

theorem handleVerifyAdmin_reject (env : Env) (store : Store)
    (bv : VerifyAdminBody)
    (he : ∃ e, (verifyAdmin env store bv.idToken).2 = .error e) :
    (handleVerifyAdmin env store bv).resp.isError = true ∧
    (handleVerifyAdmin env store bv).store = store ∧
    ((handleVerifyAdmin env store bv).ops).filter StoreOp.isWrite = [] := by
  obtain ⟨e, he⟩ := he
  unfold handleVerifyAdmin
  by_cases h : verifyAdminSchemaOk bv = false
  · simp [h, AdminResponse.isError]
  · rcases hv : verifyAdmin env store bv.idToken with ⟨ops, r⟩
    rw [hv] at he
    simp only at he
    subst he
    have hw := verifyAdmin_ops_no_writes env store bv.idToken
    rw [hv] at hw
    simp only at hw
    simp [h, hv, AdminResponse.isError, hw]

theorem handleBanUser_reject (env : Env) (store : Store) (bb : BanUserBody)
    (he : ∃ e, (verifyAdmin env store bb.idToken).2 = .error e) :
    (handleBanUser env store bb).resp.isError = true ∧
    (handleBanUser env store bb).store = store ∧
    ((handleBanUser env store bb).ops).filter StoreOp.isWrite = [] := by
  obtain ⟨e, he⟩ := he
  unfold handleBanUser
  by_cases h : banUserSchemaOk bb = false
  · simp [h, AdminResponse.isError]
  · rcases hv : verifyAdmin env store bb.idToken with ⟨ops, r⟩
    rw [hv] at he
    simp only at he
    subst he
    have hw := verifyAdmin_ops_no_writes env store bb.idToken
    rw [hv] at hw
    simp only at hw
    simp [h, hv, AdminResponse.isError, hw]

theorem handleGetAllUsers_reject (env : Env) (store : Store)
    (authz : Option String) (tok : String) (hz : bearerToken authz = some tok)
    (he : ∃ e, (verifyAdmin env store tok).2 = .error e) :
    (handleGetAllUsers env store authz).resp.isError = true ∧
    (handleGetAllUsers env store authz).store = store ∧
    ((handleGetAllUsers env store authz).ops).filter StoreOp.isWrite = [] := by
  obtain ⟨e, he⟩ := he
  unfold handleGetAllUsers
  rcases hv : verifyAdmin env store tok with ⟨ops, r⟩
  rw [hv] at he
  simp only at he
  subst he
  have hw := verifyAdmin_ops_no_writes env store tok
  rw [hv] at hw
  simp only at hw
  simp [hz, hv, AdminResponse.isError, hw]

theorem handleCreateLicense_reject (env : Env) (store : Store)
    (authz : Option String) (bl : CreateLicenseBody) (tok : String)
    (hz : bearerToken authz = some tok)
    (he : ∃ e, (verifyAdmin env store tok).2 = .error e) :
    (handleCreateLicense env store authz bl).resp.isError = true ∧
    (handleCreateLicense env store authz bl).store = store ∧
    ((handleCreateLicense env store authz bl).ops).filter StoreOp.isWrite
      = [] := by
  obtain ⟨e, he⟩ := he
  unfold handleCreateLicense
  rcases hv : verifyAdmin env store tok with ⟨ops, r⟩
  rw [hv] at he
  simp only at he
  subst he
  have hw := verifyAdmin_ops_no_writes env store tok
  rw [hv] at hw
  simp only at hw
  simp [hz, hv, AdminResponse.isError, hw]

/-- C1: for every request whose bearer token decodes to a subject that
either has no record in the users collection or whose record does not
carry the administrative-privilege flag, each of the four admin
operations answers with an error envelope, leaves the record store
unchanged, and performs zero writes to the record store. -/
theorem admin_ops_reject_non_admin (env : Env) (store : Store)
    (tok uid : String) (bv : VerifyAdminBody) (bb : BanUserBody)
    (authz : Option String) (bl : CreateLicenseBody)
    (ht : env.tokenSubject tok = some uid)
    (hno : List.lookup uid store.users = none ∨
      ∃ u, List.lookup uid store.users = some u ∧ u.isAdmin = false)
    (hv : bv.idToken = tok) (hb : bb.idToken = tok)
    (hz : bearerToken authz = some tok) :
    ((handleVerifyAdmin env store bv).resp.isError = true ∧
     (handleVerifyAdmin env store bv).store = store ∧
     ((handleVerifyAdmin env store bv).ops).filter StoreOp.isWrite = []) ∧
    ((handleBanUser env store bb).resp.isError = true ∧
     (handleBanUser env store bb).store = store ∧
     ((handleBanUser env store bb).ops).filter StoreOp.isWrite = []) ∧
    ((handleGetAllUsers env store authz).resp.isError = true ∧
     (handleGetAllUsers env store authz).store = store ∧
     ((handleGetAllUsers env store authz).ops).filter StoreOp.isWrite = []) ∧
    ((handleCreateLicense env store authz bl).resp.isError = true ∧
     (handleCreateLicense env store authz bl).store = store ∧
     ((handleCreateLicense env store authz bl).ops).filter StoreOp.isWrite
       = []) := by
  have he := verifyAdmin_snd_error env store tok uid ht hno
  exact ⟨handleVerifyAdmin_reject env store bv (hv ▸ he),
    handleBanUser_reject env store bb (hb ▸ he),
    handleGetAllUsers_reject env store authz tok hz he,
    handleCreateLicense_reject env store authz bl tok hz he⟩

/-- Witness for C1: a token resolving to a subject with no user record,
against a store with no users. -/
theorem admin_ops_reject_non_admin_witness :
    ((handleVerifyAdmin sampleEnv emptyStore sampleVerifyBody).resp.isError
        = true ∧
     (handleVerifyAdmin sampleEnv emptyStore sampleVerifyBody).store
        = emptyStore ∧
     ((handleVerifyAdmin sampleEnv emptyStore
        sampleVerifyBody).ops).filter StoreOp.isWrite = []) ∧
    ((handleBanUser sampleEnv emptyStore sampleBanBody).resp.isError
        = true ∧
     (handleBanUser sampleEnv emptyStore sampleBanBody).store = emptyStore ∧
     ((handleBanUser sampleEnv emptyStore sampleBanBody).ops).filter
        StoreOp.isWrite = []) ∧
    ((handleGetAllUsers sampleEnv emptyStore sampleAuthz).resp.isError
        = true ∧
     (handleGetAllUsers sampleEnv emptyStore sampleAuthz).store
        = emptyStore ∧
     ((handleGetAllUsers sampleEnv emptyStore sampleAuthz).ops).filter
        StoreOp.isWrite = []) ∧
    ((handleCreateLicense sampleEnv emptyStore sampleAuthz
        sampleLicenseBody).resp.isError = true ∧
     (handleCreateLicense sampleEnv emptyStore sampleAuthz
        sampleLicenseBody).store = emptyStore ∧
     ((handleCreateLicense sampleEnv emptyStore sampleAuthz
        sampleLicenseBody).ops).filter StoreOp.isWrite = []) :=
  admin_ops_reject_non_admin sampleEnv emptyStore "tok4567890" "adm"
    sampleVerifyBody sampleBanBody sampleAuthz sampleLicenseBody rfl
    (Or.inl rfl) rfl rfl (by decide)

/-- C3: when validation and the admin check succeed but the target user
record is absent, handleBanUser answers 404 "User not found"; when the
target record carries the admin flag, it answers 403 "Cannot ban admin
users".  In both cases the returned store is exactly the input store (no
ban record is created) and the trace holds only the two reads. -/
theorem banUser_no_record_on_missing_or_admin_target (env : Env)
    (store : Store) (bb : BanUserBody) (uid : String) (admin : UserRecord)
    (hsch : banUserSchemaOk bb = true) (hs : env.sdkInitialized = true)
    (ht : env.tokenSubject bb.idToken = some uid)
    (hu : List.lookup uid store.users = some admin)
    (ha : admin.isAdmin = true) :
    (List.lookup bb.userId store.users = none →
      handleBanUser env store bb =
        ⟨.errorResp 404 "User not found", store,
          [StoreOp.readUser uid, StoreOp.readUser bb.userId]⟩) ∧
    (∀ target, List.lookup bb.userId store.users = some target →
      target.isAdmin = true →
      handleBanUser env store bb =
        ⟨.errorResp 403 "Cannot ban admin users", store,
          [StoreOp.readUser uid, StoreOp.readUser bb.userId]⟩) := by
  have hva := verifyAdmin_ok env store bb.idToken uid admin hs ht hu ha
  constructor
  · intro htg
    unfold handleBanUser
    simp [hsch, hva, htg]
  · intro target htg hta
    unfold handleBanUser
    simp [hsch, hva, htg, hta]

/-- Witness for C3 at the 404 branch: the sample admin bans an id with no
user record. -/
theorem banUser_no_record_on_missing_or_admin_target_witness :
    handleBanUser sampleEnv
      { users := [("adm", sampleAdmin)], bans := [], licenses := [] }
      sampleBanBody =
      ⟨.errorResp 404 "User not found",
        { users := [("adm", sampleAdmin)], bans := [], licenses := [] },
        [StoreOp.readUser "adm", StoreOp.readUser "user567890"]⟩ :=
  (banUser_no_record_on_missing_or_admin_target sampleEnv
    { users := [("adm", sampleAdmin)], bans := [], licenses := [] }
    sampleBanBody "adm" sampleAdmin (by decide) rfl rfl (by decide)
    rfl).1 (by decide)

/-- C4 counterexample: the exactness claim fails on the program in two
ways.  First, the ban handler reads the clock twice; when the host clock
advances by one millisecond between `bannedAt: new Date()` and the
`Date.now()` of the expiry expression, the validated request with
duration 86400 writes a record with expiresAt = 1700086400001, while
bannedAt + duration * 1000 = 1700086400000.  Second, the admin.ts
validator accepts duration 10^13, for which the expiry argument
10001700000000000 ms exceeds the JS Date range of 8.64e15 ms, so
expiresAt is an Invalid Date rather than any number. -/
theorem banUser_expiry_not_exact :
    (((handleBanUser sampleEnvTick sampleStore sampleBanBody).store.bans).map
        fun b => (b.bannedAt, b.duration, b.expiresAt)) =
      [((1700000000000 : Int), (86400 : Int), some (1700086400001 : Int))] ∧
    some (1700086400001 : Int) ≠
      some ((1700000000000 : Int) + 86400 * 1000) ∧
    (((handleBanUser sampleEnv sampleStore hugeBanBody).store.bans).map
        fun b => (b.bannedAt, b.duration, b.expiresAt)) =
      [((1700000000000 : Int), (10000000000000 : Int),
        (none : Option Int))] := by
  decide

/-- C4 as amended: on the successful ban path, when the host clock does
not advance between the two clock readings of the handler and the
computed expiry lies within the JS Date range, the single appended ban
record satisfies expiresAt = bannedAt + duration * 1000 milliseconds
exactly, with the duration taken unchanged from the validated request;
a clock advance shifts the expiry by exactly that advance, and an
out-of-range sum yields an Invalid Date instead. -/
theorem banUser_expiry_exact_when_clock_stable (env : Env) (store : Store)
    (bb : BanUserBody) (uid : String) (admin target : UserRecord)
    (hsch : banUserSchemaOk bb = true) (hs : env.sdkInitialized = true)
    (ht : env.tokenSubject bb.idToken = some uid)
    (hu : List.lookup uid store.users = some admin)
    (ha : admin.isAdmin = true)
    (htg : List.lookup bb.userId store.users = some target)
    (hta : target.isAdmin = false)
    (htick : env.tick = 0)
    (hrange : ((env.now : Int) + bb.duration * 1000).natAbs ≤
      8640000000000000) :
    ∃ b : BanRecord,
      (handleBanUser env store bb).store.bans = store.bans ++ [b] ∧
      b.duration = bb.duration ∧ b.bannedAt = (env.now : Int) ∧
      b.expiresAt = some (b.bannedAt + bb.duration * 1000) := by
  have hva := verifyAdmin_ok env store bb.idToken uid admin hs ht hu ha
  refine ⟨BanRecord.mk bb.userId bb.reason uid (env.now : Int) bb.duration
    (jsDateValue ((env.now + env.tick : Nat) + bb.duration * 1000)), ?_,
    rfl, rfl, ?_⟩
  · unfold handleBanUser
    simp [hsch, hva, htg, hta]
  · show jsDateValue ((env.now + env.tick : Nat) + bb.duration * 1000) =
      some ((env.now : Int) + bb.duration * 1000)
    rw [htick, Nat.add_zero]
    unfold jsDateValue
    rw [if_pos hrange]

/-- Witness for the amended C4: with a stable clock, banning the sample
non-admin user for 86400 seconds appends a record whose expiry is its
issue time plus 86400000 milliseconds. -/
theorem banUser_expiry_exact_when_clock_stable_witness :
    ∃ b : BanRecord,
      (handleBanUser sampleEnv sampleStore sampleBanBody).store.bans =
        sampleStore.bans ++ [b] ∧
      b.duration = sampleBanBody.duration ∧
      b.bannedAt = (sampleEnv.now : Int) ∧
      b.expiresAt = some (b.bannedAt + sampleBanBody.duration * 1000) :=
  banUser_expiry_exact_when_clock_stable sampleEnv sampleStore
    sampleBanBody "adm" sampleAdmin sampleUser (by decide) rfl rfl
    (by decide) rfl (by decide) rfl rfl (by decide)

/-- C7: on the successful path, List Users answers with exactly the
projection of the users collection; the projection of any user document
lists exactly the six declared keys (document id plus the five declared
fields) and is independent of whatever additional fields the stored
document carries, so no other field can leak. -/
theorem listUsers_projection_exact (env : Env) (store : Store)
    (authz : Option String) (tok uid : String) (admin : UserRecord)
    (hs : env.sdkInitialized = true) (hz : bearerToken authz = some tok)
    (ht : env.tokenSubject tok = some uid)
    (hu : List.lookup uid store.users = some admin)
    (ha : admin.isAdmin = true) :
    (handleGetAllUsers env store authz).resp =
      .usersOk (store.users.map fun p => projectUser p.1 p.2) ∧
    (∀ i u, (projectUser i u).map Prod.fst =
      ["uid", "email", "displayName", "isAdmin", "plan", "createdAt"]) ∧
    (∀ i (u : UserRecord) (e : List (String × FieldValue)),
      projectUser i { u with extra := e } = projectUser i u) := by
  have hva := verifyAdmin_ok env store tok uid admin hs ht hu ha
  refine ⟨?_, fun i u => rfl, fun i u e => rfl⟩
  unfold handleGetAllUsers
  simp [hz, hva]

/-- Witness for C7, including a stored document with an additional field
that the projection provably drops. -/
theorem listUsers_projection_exact_witness :
    (handleGetAllUsers sampleEnv sampleStore sampleAuthz).resp =
      .usersOk (sampleStore.users.map fun p => projectUser p.1 p.2) ∧
    (projectUser "u123"
        { sampleUser with extra := [("secret", .str "hidden")] }).map
        Prod.fst =
      ["uid", "email", "displayName", "isAdmin", "plan", "createdAt"] ∧
    projectUser "u123" { sampleUser with extra := [("secret", .str "hidden")] }
      = projectUser "u123" sampleUser := by
  have h := listUsers_projection_exact sampleEnv sampleStore sampleAuthz
    "tok4567890" "adm" sampleAdmin rfl (by decide) rfl (by decide) rfl
  exact ⟨h.1, h.2.1 "u123" _, h.2.2 "u123" sampleUser _⟩

/-- C5 counterexample: the BanUserSchema of admin.ts accepts duration
36501, which lies outside 1..36500, so not every request passing input
validation has a duration in that range. -/
theorem banUserSchema_accepts_36501 :
    banUserSchemaOk looseBanBody = true ∧ 36500 < looseBanBody.duration := by
  decide

/-- C5 as amended: a request passing the strict Ban User schema of
src/unnamed/part_000 has an integer duration between 1 and 36500
inclusive (and any out-of-range duration is rejected by that schema,
which runs before any business logic); the BanUserSchema of
src/server/routes/admin.ts, however, only bounds the duration below, by
`.int().positive()`. -/
theorem banUserSchema_duration_bounds (b : BanUserBody) :
    (banUserSchemaStrictOk b = true →
      1 ≤ b.duration ∧ b.duration ≤ 36500) ∧
    (banUserSchemaOk b = true → 1 ≤ b.duration) := by
  constructor
  · intro h
    unfold banUserSchemaStrictOk at h
    simp only [Bool.and_eq_true, decide_eq_true_eq] at h
    omega
  · intro h
    unfold banUserSchemaOk at h
    simp only [Bool.and_eq_true, decide_eq_true_eq] at h
    omega

/-- Witness for the amended C5 at a strictly valid body with the boundary
duration 36500. -/
theorem banUserSchema_duration_bounds_witness :
    1 ≤ strictBanBody.duration ∧ strictBanBody.duration ≤ 36500 :=
  (banUserSchema_duration_bounds strictBanBody).1 (by decide)

theorem digitChar_isDigit (d : Nat) (hd : d < 10) :
    (Nat.digitChar d).isDigit = true := by
  interval_cases d <;> decide

theorem decDigitsAux_digits (fuel : Nat) :
    ∀ n, ∀ c ∈ decDigitsAux fuel n, c.isDigit = true := by
  induction fuel with
  | zero => intro n c hc; simp [decDigitsAux] at hc
  | succ f ih =>
    intro n c hc
    unfold decDigitsAux at hc
    by_cases h : n < 10
    · simp [h] at hc
      subst hc
      exact digitChar_isDigit n h
    · simp [h] at hc
      rcases hc with hc | hc
      · exact ih _ c hc
      · subst hc
        exact digitChar_isDigit _ (Nat.mod_lt _ (by decide))

theorem decDigitsAux_ne_nil (f n : Nat) : decDigitsAux (f + 1) n ≠ [] := by
  unfold decDigitsAux
  by_cases h : n < 10 <;> simp [h]

theorem splitAtDash_append (ds sfx : List Char) (h : '-' ∉ ds) :
    splitAtDash (ds ++ '-' :: sfx) = some (ds, sfx) := by
  induction ds with
  | nil => simp [splitAtDash]
  | cons c cs ih =>
    simp only [List.mem_cons, not_or] at h
    have hc : ¬(c = '-') := fun hcc => h.1 hcc.symm
    simp only [List.cons_append]
    unfold splitAtDash
    rw [if_neg hc, ih h.2]

theorem upperBase36Char_upperAlnum :
    ∀ d : Fin 36, isUpperAlnumChar (upperBase36Char d) = true := by decide

theorem licenseKey_matches (now : Nat) (rd : List (Fin 36))
    (h : 9 ≤ rd.length) :
    matchesLicensePattern (licenseKeyChars now rd) = true := by
  have hdig := decDigitsAux_digits (now + 1) now
  have hnd : '-' ∉ decDigits now := by
    intro hmem
    have := hdig '-' hmem
    simp [Char.isDigit] at this
  unfold licenseKeyChars matchesLicensePattern
  show ('L' == 'L' && 'I' == 'I' && 'C' == 'C' && '-' == '-' &&
    (match splitAtDash
        (decDigits now ++ '-' :: (rd.take 9).map upperBase36Char) with
     | none => false
     | some (ds, sfx) =>
       !ds.isEmpty && ds.all Char.isDigit && (sfx.length == 9) &&
         sfx.all isUpperAlnumChar)) = true
  rw [splitAtDash_append _ _ hnd]
  have hne : ¬(decDigits now).isEmpty := by
    cases hd : decDigits now with
    | nil => exact absurd hd (decDigitsAux_ne_nil now now)
    | cons a as => simp
  have hall : (decDigits now).all Char.isDigit = true :=
    List.all_eq_true.mpr fun c hc => hdig c hc
  have hlen : ((rd.take 9).map upperBase36Char).length = 9 := by
    simp [List.length_map, List.length_take]
    omega
  have hup : ((rd.take 9).map upperBase36Char).all isUpperAlnumChar
      = true := by
    refine List.all_eq_true.mpr fun c hc => ?_
    obtain ⟨d, _, rfl⟩ := List.mem_map.mp hc
    exact upperBase36Char_upperAlnum d
  simp [hne, hall, hlen, hup]
  refine ⟨h, fun x hx => ?_⟩
  obtain ⟨d, _, rfl⟩ := List.mem_map.mp (List.mem_of_mem_take hx)
  exact upperBase36Char_upperAlnum d

/-- C6 as amended: on the successful path, Create License writes under
the generated key a record with used = false, usedBy = null, usedAt =
null, whose key field is that generated key; the key matches the pattern
LIC-(digits)-(9 uppercase alphanumerics) whenever the printed base-36
expansion of the random value has at least nine fractional digits (the
typical case); with a shorter expansion the suffix has fewer than nine
characters. -/
theorem createLicense_record_shape (env : Env) (store : Store)
    (authz : Option String) (bl : CreateLicenseBody) (tok uid : String)
    (admin : UserRecord) (hs : env.sdkInitialized = true)
    (hz : bearerToken authz = some tok)
    (ht : env.tokenSubject tok = some uid)
    (hu : List.lookup uid store.users = some admin)
    (ha : admin.isAdmin = true) (hb : createLicenseBodyOk bl = true) :
    ∃ lic : LicenseRecord,
      (handleCreateLicense env store authz bl).store.licenses =
        assocSetLicense (licenseKeyChars env.now env.randDigits) lic
          store.licenses ∧
      lic.used = false ∧ lic.usedBy = none ∧ lic.usedAt = none ∧
      lic.key = licenseKeyChars env.now env.randDigits ∧
      (9 ≤ env.randDigits.length →
        matchesLicensePattern (licenseKeyChars env.now env.randDigits)
          = true) := by
  have hva := verifyAdmin_ok env store tok uid admin hs ht hu ha
  refine ⟨LicenseRecord.mk (licenseKeyChars env.now env.randDigits) bl.plan
    bl.validityDays uid (env.now + env.tick) false none none, ?_, rfl, rfl,
    rfl, rfl, fun h9 => licenseKey_matches env.now env.randDigits h9⟩
  unfold handleCreateLicense
  simp [hz, hva, hb]

/-- Witness for the amended C6: the sample environment has nine printed
random digits, so the written record is unused and its key matches the
declared pattern. -/
theorem createLicense_record_shape_witness :
    ∃ lic : LicenseRecord,
      (handleCreateLicense sampleEnv sampleStore sampleAuthz
          sampleLicenseBody).store.licenses =
        assocSetLicense (licenseKeyChars sampleEnv.now sampleEnv.randDigits)
          lic sampleStore.licenses ∧
      lic.used = false ∧ lic.usedBy = none ∧ lic.usedAt = none ∧
      lic.key = licenseKeyChars sampleEnv.now sampleEnv.randDigits ∧
      (9 ≤ sampleEnv.randDigits.length →
        matchesLicensePattern
          (licenseKeyChars sampleEnv.now sampleEnv.randDigits) = true) :=
  createLicense_record_shape sampleEnv sampleStore sampleAuthz
    sampleLicenseBody "tok4567890" "adm" sampleAdmin rfl (by decide) rfl
    (by decide) rfl (by decide)

/-- C6 counterexample: when Math.random() returns 0.5, whose base-36
rendering "0.i" has a single fractional digit, Create License still
writes a license record, but its key LIC-1700000000000-I has a one-letter
suffix and fails the declared pattern of nine uppercase
alphanumerics. -/
theorem createLicense_key_pattern_fails_short_random :
    ((handleCreateLicense sampleEnvShortRand sampleStore sampleAuthz
        sampleLicenseBody).store.licenses).map Prod.fst =
      [licenseKeyChars 1700000000000 [(18 : Fin 36)]] ∧
    matchesLicensePattern (licenseKeyChars 1700000000000 [(18 : Fin 36)])
      = false := by decide

/-- C10: createSecureMessage returns null exactly when conversation-id
validation, user-id validation, content validation or injection detection
fails, and otherwise returns the object whose ids equal the inputs
unchanged and whose content and sanitizedContent both equal the
sanitized content. -/
theorem createSecureMessage_spec (cid uid content : List Char) :
    createSecureMessage cid uid content =
      (if validateConversationId cid && validateUserId uid &&
          validateMessageContent content &&
          !detectInjectionAttempt content then
        some (SecureMessage.mk cid uid (sanitizeInput content)
          (sanitizeInput content))
      else none) := by
  unfold createSecureMessage
  cases h1 : validateConversationId cid <;>
    cases h2 : validateUserId uid <;>
      cases h3 : validateMessageContent content <;>
        cases h4 : detectInjectionAttempt content <;>
          simp [h1, h2, h3, h4]

theorem isAllowed_step (rl : RateLimiter) (t r c : Nat) (ht : t ≤ r)
    (hc : c < rl.maxRequests) :
    rl.isAllowed t (some ⟨c, r⟩) = (true, some ⟨c + 1, r⟩) := by
  show (if r < t then (true, some (RLData.mk 1 (t + rl.windowMs)))
    else if rl.maxRequests ≤ c then (false, some (RLData.mk c r))
    else (true, some (RLData.mk (c + 1) r))) =
    (true, some (RLData.mk (c + 1) r))
  rw [if_neg (by omega), if_neg (by omega)]

theorem runCalls_fill (rl : RateLimiter) (r : Nat) (ts : List Nat) :
    ∀ c, (∀ t ∈ ts, t ≤ r) → c + ts.length ≤ rl.maxRequests →
    runCalls rl ts (some ⟨c, r⟩) =
      (List.replicate ts.length true, some ⟨c + ts.length, r⟩) := by
  induction ts with
  | nil => intro c _ _; simp [runCalls]
  | cons t ts ih =>
    intro c hts hc
    have hstep := isAllowed_step rl t r c (hts t (List.mem_cons_self t ts))
      (by simp at hc; omega)
    unfold runCalls
    simp only [hstep]
    rw [ih (c + 1) (fun x hx => hts x (List.mem_cons_of_mem _ hx))
      (by simp at hc ⊢; omega)]
    simp [List.replicate_succ]
    omega

/-- C9 as amended (the maximum must be at least one, which the length
hypothesis forces): starting from empty storage, a first call at time t1
and then maxRequests - 1 further calls at times within the window opened
by the first call are all allowed; the next call within that window is
denied; and a call after the resetAt time of the window has passed is allowed
again. -/
theorem rateLimiter_window_behavior (rl : RateLimiter) (t1 : Nat)
    (ts : List Nat) (hlen : 1 + ts.length = rl.maxRequests)
    (hts : ∀ t ∈ ts, t ≤ t1 + rl.windowMs)
    (tb : Nat) (hb : tb ≤ t1 + rl.windowMs)
    (ta : Nat) (ha : t1 + rl.windowMs < ta) :
    (rl.isAllowed t1 none).1 = true ∧
    (runCalls rl ts (rl.isAllowed t1 none).2).1 =
      List.replicate ts.length true ∧
    (rl.isAllowed tb (runCalls rl ts (rl.isAllowed t1 none).2).2).1
      = false ∧
    (rl.isAllowed ta
      (rl.isAllowed tb
        (runCalls rl ts (rl.isAllowed t1 none).2).2).2).1 = true := by
  have h0 : rl.isAllowed t1 none =
      (true, some ⟨1, t1 + rl.windowMs⟩) := rfl
  have hfill := runCalls_fill rl (t1 + rl.windowMs) ts 1 hts (by omega)
  have hblock : rl.isAllowed tb (some ⟨1 + ts.length, t1 + rl.windowMs⟩) =
      (false, some ⟨1 + ts.length, t1 + rl.windowMs⟩) := by
    show (if t1 + rl.windowMs < tb then
        (true, some (RLData.mk 1 (tb + rl.windowMs)))
      else if rl.maxRequests ≤ 1 + ts.length then
        (false, some (RLData.mk (1 + ts.length) (t1 + rl.windowMs)))
      else (true, some (RLData.mk (1 + ts.length + 1) (t1 + rl.windowMs)))) =
      (false, some (RLData.mk (1 + ts.length) (t1 + rl.windowMs)))
    rw [if_neg (by omega), if_pos (by omega)]
  have hafter : (rl.isAllowed ta
      (some ⟨1 + ts.length, t1 + rl.windowMs⟩)).1 = true := by
    show ((if t1 + rl.windowMs < ta then
        (true, some (RLData.mk 1 (ta + rl.windowMs)))
      else if rl.maxRequests ≤ 1 + ts.length then
        (false, some (RLData.mk (1 + ts.length) (t1 + rl.windowMs)))
      else (true, some (RLData.mk (1 + ts.length + 1) (t1 + rl.windowMs)))) :
        Bool × Option RLData).1 = true
    rw [if_pos (by omega)]
  refine ⟨?_, ?_, ?_, ?_⟩
  · rw [h0]
  · rw [h0, hfill]
  · rw [h0, hfill, hblock]
  · rw [h0, hfill, hblock]
    exact hafter

/-- Witness for the amended C9: maximum 2 per 1000 ms window; calls at 0
and 5 are allowed, a third call at 7 is denied, a call at 2000 is allowed
again. -/
theorem rateLimiter_window_behavior_witness :
    (RateLimiter.isAllowed ⟨2, 1000⟩ 0 none).1 = true ∧
    (runCalls ⟨2, 1000⟩ [5] (RateLimiter.isAllowed ⟨2, 1000⟩ 0 none).2).1 =
      List.replicate 1 true ∧
    (RateLimiter.isAllowed ⟨2, 1000⟩ 7
      (runCalls ⟨2, 1000⟩ [5]
        (RateLimiter.isAllowed ⟨2, 1000⟩ 0 none).2).2).1 = false ∧
    (RateLimiter.isAllowed ⟨2, 1000⟩ 2000
      (RateLimiter.isAllowed ⟨2, 1000⟩ 7
        (runCalls ⟨2, 1000⟩ [5]
          (RateLimiter.isAllowed ⟨2, 1000⟩ 0 none).2).2).2).1 = true :=
  rateLimiter_window_behavior ⟨2, 1000⟩ 0 [5] rfl (by decide) 7 (by decide)
    2000 (by decide)

/-- C9 counterexample: for a rate limiter with maximum 0 requests per
window, the claim says the first call within the window (the (N+1)th for
N = 0) is denied, but the empty-storage branch stores count 1 and answers
true without consulting the maximum, so the call is allowed. -/
theorem rateLimiter_zero_max_first_allowed :
    (RateLimiter.isAllowed ⟨0, 60000⟩ 5 none).1 = true := by decide

theorem stripTagsAux_subset (l : List Char) :
    ∀ m, ∀ c ∈ stripTagsAux m l, c ∈ l := by
  induction l with
  | nil => intro m c hc; simp [stripTagsAux] at hc
  | cons a as ih =>
    intro m c hc
    cases m with
    | false =>
      by_cases h : a = '<'
      · rw [stripTagsAux, if_pos h] at hc
        exact List.mem_cons_of_mem _ (ih true c hc)
      · rw [stripTagsAux, if_neg h] at hc
        rcases List.mem_cons.mp hc with hc | hc
        · simp [hc]
        · exact List.mem_cons_of_mem _ (ih false c hc)
    | true =>
      by_cases h : a = '>'
      · rw [stripTagsAux, if_pos h] at hc
        exact List.mem_cons_of_mem _ (ih false c hc)
      · rw [stripTagsAux, if_neg h] at hc
        exact List.mem_cons_of_mem _ (ih true c hc)

theorem stripTagsAux_no_lt (l : List Char) :
    ∀ m, '<' ∉ stripTagsAux m l := by
  induction l with
  | nil => intro m; simp [stripTagsAux]
  | cons a as ih =>
    intro m
    cases m with
    | false =>
      by_cases h : a = '<'
      · rw [stripTagsAux, if_pos h]
        exact ih true
      · rw [stripTagsAux, if_neg h]
        intro hc
        rcases List.mem_cons.mp hc with hc | hc
        · exact h hc.symm
        · exact ih false hc
    | true =>
      by_cases h : a = '>'
      · rw [stripTagsAux, if_pos h]
        exact ih false
      · rw [stripTagsAux, if_neg h]
        exact ih true

theorem stripTagsAux_id_of_no_lt (l : List Char) (h : '<' ∉ l) :
    stripTagsAux false l = l := by
  induction l with
  | nil => rfl
  | cons a as ih =>
    simp only [List.mem_cons, not_or] at h
    have ha : ¬(a = '<') := fun hh => h.1 hh.symm
    rw [stripTagsAux, if_neg ha, ih h.2]

theorem mem_of_mem_dropWhileP (p : Char → Bool) (l : List Char) (c : Char)
    (hc : c ∈ l.dropWhile p) : c ∈ l := by
  induction l with
  | nil => simp [List.dropWhile] at hc
  | cons a as ih =>
    rw [List.dropWhile_cons] at hc
    by_cases h : p a = true
    · rw [if_pos h] at hc
      exact List.mem_cons_of_mem _ (ih hc)
    · rw [if_neg h] at hc
      exact hc

theorem mem_of_mem_jsTrim (s : List Char) (c : Char) (hc : c ∈ jsTrim s) :
    c ∈ s := by
  unfold jsTrim at hc
  rw [List.mem_reverse] at hc
  have h2 := mem_of_mem_dropWhileP _ _ _ hc
  rw [List.mem_reverse] at h2
  exact mem_of_mem_dropWhileP _ _ _ h2

theorem sanitizeInput_no_bad (s : List Char) :
    ∀ c ∈ sanitizeInput s, (!(c == '\x00')) = true ∧
      (!(isStrippedCtrl c)) = true ∧ c ≠ '<' := by
  intro c hc
  unfold sanitizeInput stripTags at hc
  have h1 := stripTagsAux_subset _ false c hc
  have hne : c ≠ '<' := by
    intro hh
    exact stripTagsAux_no_lt _ false (hh ▸ hc)
  have h2 := List.of_mem_filter h1
  have h3 := List.of_mem_filter (List.mem_of_mem_filter h1)
  exact ⟨h3, h2, hne⟩

/-- C8 as amended: the sanitizer is not idempotent as stated; a second
application coincides with merely re-trimming the first result, because
removing control characters and markup can expose new leading or trailing
whitespace that only the next trim removes.  So for every input,
sanitizeInput (sanitizeInput x) = jsTrim (sanitizeInput x), and the two
sides differ from sanitizeInput x exactly on such exposed whitespace. -/
theorem sanitizeInput_twice_eq_trim (s : List Char) :
    sanitizeInput (sanitizeInput s) = jsTrim (sanitizeInput s) := by
  have hbad := sanitizeInput_no_bad s
  set y := sanitizeInput s with hy
  have hmem : ∀ c ∈ jsTrim y, (!(c == '\x00')) = true ∧
      (!(isStrippedCtrl c)) = true ∧ c ≠ '<' :=
    fun c hc => hbad c (mem_of_mem_jsTrim _ c hc)
  show stripTags (((jsTrim y).filter fun c => !(c == '\x00')).filter
    fun c => !(isStrippedCtrl c)) = jsTrim y
  rw [List.filter_eq_self.mpr fun c hc => (hmem c hc).1]
  rw [List.filter_eq_self.mpr fun c hc => (hmem c hc).2.1]
  exact stripTagsAux_id_of_no_lt _ fun hlt => (hmem '<' hlt).2.2 rfl

/-- C8 counterexample: sanitizing the string with code points 01, 20, 61
(a control character, a space, then the letter a) yields " a", whose
leading space appeared only after the control character was removed;
sanitizing again trims it away to "a", so the sanitizer is not
idempotent. -/
theorem sanitizeInput_not_idempotent :
    sanitizeInput (sanitizeInput ['\x01', ' ', 'a']) ≠
      sanitizeInput ['\x01', ' ', 'a'] := by decide
